import Mathlib

/-!
Verification development for the routing-pipeline repository.

The Python source is shallowly embedded:
* Python strings are `List Char` (`PyStr`); `str.strip`, `str.split`,
  `str.replace`, substring tests and `str.isdigit` are modelled by
  executable functions below.
* Python `float` values are modelled as exact rationals `ℚ`; the builtin
  `float(s)` conversion is modelled by `parseFloat` for finite decimal
  literals (optional sign, digits, optional fraction, optional exponent).
* External collaborators (the subprocess/network transport, the rtree
  spatial index, shapely geometry distances) are abstracted as function
  parameters; everything written in the repository itself is translated
  directly from `src/api/ch_query.py`, `src/api/server.py` and
  `src/api/data_loader.py`.
* Python exceptions are modelled with explicit Option/sum-like outcomes.
-/

/-- Python strings, modelled as lists of characters. -/
abbrev PyStr := List Char

/-- Convert a Lean string literal to the `PyStr` model. -/
def pys (s : String) : PyStr := s.data

/-- The set of characters Python's `str.strip()` removes
(space, tab, newline, carriage return, vertical tab, form feed). -/
def isPySpace (c : Char) : Bool :=
  c = ' ' || c = '\t' || c = '\n' || c = '\r' || c = '\x0b' || c = '\x0c'

/-- Python `s.strip()`: drop whitespace from both ends. -/
def pyStrip (s : PyStr) : PyStr :=
  ((s.dropWhile isPySpace).reverse.dropWhile isPySpace).reverse

/-- One ASCII decimal digit (the fragment of Python `str.isdigit` that the
parsed engine output can produce). -/
def isAsciiDigit (c : Char) : Bool :=
  48 ≤ c.toNat && c.toNat ≤ 57

/-- Python `p.isdigit()` restricted to ASCII: non-empty and all digits. -/
def pyIsDigit (s : PyStr) : Bool :=
  !s.isEmpty && s.all isAsciiDigit

/-- Numeric value of a digit string, as used by Python `int(p)` on a string
that passed `isdigit`. -/
def digitsToNat (s : PyStr) : ℕ :=
  s.foldl (fun n c => 10 * n + (c.toNat - 48)) 0

/-- Fuel-driven worker for Python `s.split(sep)` with a non-empty separator:
at each position, if `sep` is a prefix, cut there; otherwise keep the
character.  The fuel is an upper bound on the length of `s`, so the
`0` case is never reached when called through `pySplit`. -/
def pySplitAux (sep : PyStr) : ℕ → PyStr → List PyStr
  | 0, s => [s]
  | _ + 1, [] => [[]]
  | fuel + 1, c :: rest =>
    if sep.isPrefixOf (c :: rest) then
      [] :: pySplitAux sep fuel (List.drop (sep.length - 1) rest)
    else
      match pySplitAux sep fuel rest with
      | [] => [[c]]
      | h :: t => (c :: h) :: t

/-- Python `s.split(sep)` for a non-empty separator `sep`. -/
def pySplit (sep s : PyStr) : List PyStr :=
  pySplitAux sep (s.length + 1) s

/-- Python `s.replace(old, new)` for non-empty `old`: replace every
non-overlapping occurrence, scanning left to right.  This equals joining
the pieces of `s.split(old)` with `new`. -/
def pyReplace (s old new : PyStr) : PyStr :=
  List.intercalate new (pySplit old s)

/-- Python substring test `pat in s` for a non-empty pattern. -/
def strContains : PyStr → PyStr → Bool
  | [], pat => pat.isEmpty
  | c :: rest, pat => pat.isPrefixOf (c :: rest) || strContains rest pat

/-- Model of Python's builtin `float(s)` on finite decimal literals:
optional sign, then digits with an optional fractional part (at least one
digit overall), then an optional exponent part; anything else fails.
Values are exact rationals. -/
def parseFloatCore (sign : ℚ) (ip fp rest : PyStr) : Option ℚ :=
  if ip.isEmpty && fp.isEmpty then none
  else
    let base : ℚ := (digitsToNat ip : ℚ) + (digitsToNat fp : ℚ) / ((10 : ℚ) ^ fp.length)
    match rest with
    | [] => some (sign * base)
    | 'e' :: r =>
      match r with
      | '+' :: t =>
        let (ed, r2) := t.span isAsciiDigit
        if ed.isEmpty || !r2.isEmpty then none else some (sign * base * (10 : ℚ) ^ digitsToNat ed)
      | '-' :: t =>
        let (ed, r2) := t.span isAsciiDigit
        if ed.isEmpty || !r2.isEmpty then none else some (sign * base * ((10 : ℚ) ^ digitsToNat ed)⁻¹)
      | t =>
        let (ed, r2) := t.span isAsciiDigit
        if ed.isEmpty || !r2.isEmpty then none else some (sign * base * (10 : ℚ) ^ digitsToNat ed)
    | 'E' :: r =>
      match r with
      | '+' :: t =>
        let (ed, r2) := t.span isAsciiDigit
        if ed.isEmpty || !r2.isEmpty then none else some (sign * base * (10 : ℚ) ^ digitsToNat ed)
      | '-' :: t =>
        let (ed, r2) := t.span isAsciiDigit
        if ed.isEmpty || !r2.isEmpty then none else some (sign * base * ((10 : ℚ) ^ digitsToNat ed)⁻¹)
      | t =>
        let (ed, r2) := t.span isAsciiDigit
        if ed.isEmpty || !r2.isEmpty then none else some (sign * base * (10 : ℚ) ^ digitsToNat ed)
    | _ => none

/-- Model of Python `float(s)`: parse sign, integer digits, optional
fraction, optional exponent; `none` models a `ValueError`. -/
def parseFloat (s : PyStr) : Option ℚ :=
  let (sign, s1) : ℚ × PyStr :=
    match s with
    | '+' :: r => (1, r)
    | '-' :: r => (-1, r)
    | r => (1, r)
  let (ip, r1) := s1.span isAsciiDigit
  match r1 with
  | '.' :: r =>
    let (fp, r2) := r.span isAsciiDigit
    parseFloatCore sign ip fp r2
  | _ => parseFloatCore sign ip [] r1

/-- Outcome of the line scan shared by both parser translations:
either a line contained "No path found", or a Python exception was raised
(`exn` carries the exception's message), or the scan finished with the
final values of the `distance`, `runtime_ms` and `path` variables. -/
inductive ScanOut where
  | noPath : ScanOut
  | exn : String → ScanOut
  | done : Option ℚ → Option ℚ → Option (List ℕ) → ScanOut
deriving DecidableEq

/-- CPython's `IndexError` message raised by `line.split(':')[1]` when the
line has no colon. -/
def indexErrMsg : String := "list index out of range"

/-- CPython's `ValueError` message raised by `float(s)` on a bad literal. -/
def floatErrMsg (s : PyStr) : String :=
  "could not convert string to float: '" ++ String.mk s ++ "'"

/-- Translation of the per-line loop of `CHQueryEngine._parse_output`
(src/api/ch_query.py lines 305-329): strip the line; a line containing
"No path found" returns immediately; a line containing "Distance" and one
of the two format markers sets `distance` from the text after the first
colon; otherwise a line containing "Runtime:" sets `runtime_ms` with a
trailing "ms" stripped; otherwise a path line sets `path` by splitting on
"->" after dropping ellipses and keeping digit-only tokens. -/
def scanEngine : List PyStr → Option ℚ → Option ℚ → Option (List ℕ) → ScanOut
  | [], d, r, p => ScanOut.done d r p
  | rawLine :: rest, d, r, p =>
    let line := pyStrip rawLine
    if strContains line (pys "No path found") then ScanOut.noPath
    else if strContains line (pys "Distance") &&
        (strContains line (pys "including destination edge") ||
         strContains line (pys "total including")) then
      match (pySplit (pys ":") line).get? 1 with
      | none => ScanOut.exn indexErrMsg
      | some piece =>
        match parseFloat (pyStrip piece) with
        | none => ScanOut.exn (floatErrMsg (pyStrip piece))
        | some v => scanEngine rest (some v) r p
    else if strContains line (pys "Runtime:") then
      match (pySplit (pys ":") line).get? 1 with
      | none => ScanOut.exn indexErrMsg
      | some piece =>
        let rs := pyStrip (pyReplace (pyStrip piece) (pys "ms") [])
        match parseFloat rs with
        | none => ScanOut.exn (floatErrMsg rs)
        | some v => scanEngine rest d (some v) p
    else if strContains line (pys "Expanded path:") ||
        strContains line (pys "Expanded base edge path:") then
      match (pySplit (pys ":") line).get? 1 with
      | none => ScanOut.exn indexErrMsg
      | some piece =>
        let pathStr := pyReplace (pyStrip piece) (pys "...") []
        let parts := (pySplit (pys "->") pathStr).map pyStrip
        let pth := (parts.filter (fun t => !t.isEmpty && pyIsDigit t)).map digitsToNat
        scanEngine rest d r (some pth)
    else scanEngine rest d r p

/-- Translation of the per-line loop of `parse_cpp_output`
(src/api/server.py lines 398-425); the loop body is line-for-line the same
as the one in `CHQueryEngine._parse_output`. -/
def scanServer : List PyStr → Option ℚ → Option ℚ → Option (List ℕ) → ScanOut
  | [], d, r, p => ScanOut.done d r p
  | rawLine :: rest, d, r, p =>
    let line := pyStrip rawLine
    if strContains line (pys "No path found") then ScanOut.noPath
    else if strContains line (pys "Distance") &&
        (strContains line (pys "including destination edge") ||
         strContains line (pys "total including")) then
      match (pySplit (pys ":") line).get? 1 with
      | none => ScanOut.exn indexErrMsg
      | some piece =>
        match parseFloat (pyStrip piece) with
        | none => ScanOut.exn (floatErrMsg (pyStrip piece))
        | some v => scanServer rest (some v) r p
    else if strContains line (pys "Runtime:") then
      match (pySplit (pys ":") line).get? 1 with
      | none => ScanOut.exn indexErrMsg
      | some piece =>
        let rs := pyStrip (pyReplace (pyStrip piece) (pys "ms") [])
        match parseFloat rs with
        | none => ScanOut.exn (floatErrMsg rs)
        | some v => scanServer rest d (some v) p
    else if strContains line (pys "Expanded path:") ||
        strContains line (pys "Expanded base edge path:") then
      match (pySplit (pys ":") line).get? 1 with
      | none => ScanOut.exn indexErrMsg
      | some piece =>
        let pathStr := pyReplace (pyStrip piece) (pys "...") []
        let parts := (pySplit (pys "->") pathStr).map pyStrip
        let pth := (parts.filter (fun t => !t.isEmpty && pyIsDigit t)).map digitsToNat
        scanServer rest d r (some pth)
    else scanServer rest d r p

/-- The `QueryResult` dataclass of src/api/ch_query.py (lines 18-25);
`float` fields are modelled as `ℚ`, edge-id paths as lists of naturals
(the parser only ever produces digit-only tokens). -/
structure QueryResult where
  success : Bool
  distance : Option ℚ := none
  runtime_ms : Option ℚ := none
  path : Option (List ℕ) := none
  error : Option String := none
deriving DecidableEq

/-- Translation of `CHQueryEngine._parse_output` (src/api/ch_query.py
lines 280-349): split the stripped output into lines, run the scan, then
fail with "Failed to parse query output" when the scan finished without
both a path and a distance; a Python exception anywhere in the scan is
caught and becomes a "Parse error: ..." failure. -/
def parse_output (output : PyStr) : QueryResult :=
  match scanEngine (pySplit (pys "\n") (pyStrip output)) none none none with
  | ScanOut.noPath =>
    { success := false, error := some "No path found" }
  | ScanOut.exn m =>
    { success := false, error := some ("Parse error: " ++ m) }
  | ScanOut.done d r p =>
    if p.isNone || d.isNone then
      { success := false, error := some "Failed to parse query output" }
    else
      { success := true, distance := d, runtime_ms := r, path := p }

/-- Translation of `parse_cpp_output` (src/api/server.py lines 381-435):
same scan, but the post-scan check only requires a path, and every failure
mode collapses to the triple `(None, None, None)`; on success the function
returns `(path, distance, runtime_ms)`. -/
def parse_cpp_output (output : PyStr) :
    Option (List ℕ) × Option ℚ × Option ℚ :=
  match scanServer (pySplit (pys "\n") (pyStrip output)) none none none with
  | ScanOut.noPath => (none, none, none)
  | ScanOut.exn _ => (none, none, none)
  | ScanOut.done d r p =>
    match p with
    | none => (none, none, none)
    | some pth => (some pth, d, r)

/-- Running state of `_query_multi_fallback` (src/api/ch_query.py lines
250-252): `bestDistance = none` models the initial `float('inf')`,
`bestPath = none` the initial `None`, and `bestRuntime` starts at `0`. -/
structure FallbackState where
  bestDistance : Option ℚ
  bestPath : Option (List ℕ)
  bestRuntime : Option ℚ
deriving DecidableEq

/-- The initial fallback state: `best_distance = float('inf')`,
`best_path = None`, `best_runtime = 0`. -/
def fallbackInit : FallbackState :=
  { bestDistance := none, bestPath := none, bestRuntime := some 0 }

/-- The comparison `total_distance < best_distance` where `best_distance`
may still be the initial `float('inf')` (modelled by `none`). -/
def ltInf (total : ℚ) : Option ℚ → Bool
  | none => true
  | some b => decide (total < b)

/-- A successful candidate pair's contribution: its corrected total
distance, the engine-reported path, and the engine-reported runtime. -/
abbrev FallbackEntry := ℚ × Option (List ℕ) × Option ℚ

/-- The `if total_distance < best_distance` update of the fallback loop
(src/api/ch_query.py lines 262-265). -/
def selStep (st : FallbackState) (e : FallbackEntry) : FallbackState :=
  if ltInf e.1 st.bestDistance then
    { bestDistance := some e.1, bestPath := e.2.1, bestRuntime := e.2.2 }
  else st

/-- The guarded body of the fallback loop (src/api/ch_query.py lines
256-265) for candidate pair `(i, j)`: run the per-pair query on the i-th
source edge and j-th target edge; when it succeeds with a distance, the
corrected total is `source_distances[i] + distance + target_distances[j]`;
`entryOf` returns `none` exactly when the guard
`result.success and result.distance is not None` rejects the pair. -/
def entryOf (q : ℤ → ℤ → QueryResult) (sourceEdges targetEdges : List ℤ)
    (sourceDistances targetDistances : List ℚ) (i j : ℕ) : Option FallbackEntry :=
  let r := q (sourceEdges.getD i 0) (targetEdges.getD j 0)
  if r.success then
    r.distance.map fun dd =>
      (sourceDistances.getD i 0 + dd + targetDistances.getD j 0, r.path, r.runtime_ms)
  else none

/-- One iteration of the fallback's inner loop at indices `(i, j)`. -/
def fallbackStep (q : ℤ → ℤ → QueryResult) (sourceEdges targetEdges : List ℤ)
    (sourceDistances targetDistances : List ℚ) (st : FallbackState) (i j : ℕ) :
    FallbackState :=
  match entryOf q sourceEdges targetEdges sourceDistances targetDistances i j with
  | some e => selStep st e
  | none => st

/-- Translation of `CHQueryEngine._query_multi_fallback` (src/api/ch_query.py
lines 239-278): iterate over all source indices and, inside, all target
indices, keeping the strictly best total; if no pair ever set `best_path`,
fail with "No path found between source and target sets", else return a
success carrying the best distance, runtime and path.  The per-pair engine
call `self.query` is abstracted as the function parameter `q`. -/
def query_multi_fallback (q : ℤ → ℤ → QueryResult) (sourceEdges targetEdges : List ℤ)
    (sourceDistances targetDistances : List ℚ) : QueryResult :=
  let st :=
    (List.range sourceEdges.length).foldl
      (fun st1 i =>
        (List.range targetEdges.length).foldl
          (fun st2 j => fallbackStep q sourceEdges targetEdges sourceDistances targetDistances st2 i j)
          st1)
      fallbackInit
  match st.bestPath with
  | none =>
    { success := false, error := some "No path found between source and target sets" }
  | some p =>
    { success := true, distance := st.bestDistance, runtime_ms := st.bestRuntime,
      path := some p }

/-- Translation of `CHQueryEngine.query_multi` (src/api/ch_query.py lines
147-237): validate the two length preconditions, then dispatch — to the
per-pair fallback when the capability check reports no batch support, else
to the batch subprocess call.  The capability check result is abstracted as
`supportsMulti` and the entire batch subprocess branch (lines 199-237) as
`batchCall`; the per-pair engine call is abstracted as `q`. -/
def query_multi (supportsMulti : Bool) (batchCall : QueryResult)
    (q : ℤ → ℤ → QueryResult) (sourceEdges targetEdges : List ℤ)
    (sourceDistances targetDistances : List ℚ) : QueryResult :=
  if sourceEdges.length ≠ sourceDistances.length then
    { success := false, error := some "source_edges and source_distances must have same length" }
  else if targetEdges.length ≠ targetDistances.length then
    { success := false, error := some "target_edges and target_distances must have same length" }
  else if !supportsMulti then
    query_multi_fallback q sourceEdges targetEdges sourceDistances targetDistances
  else batchCall

/-- Translation of `CHQueryEngine._check_multi_query_support`
(src/api/ch_query.py lines 75-95).  The cached `self._supports_multi_query`
field is threaded explicitly: the function takes the cache before the call
and returns the boolean result together with the cache after the call.
The `subprocess.run([binary, "--help"], ...)` probe is abstracted as
`probe`: `some (out, err)` models a run returning stdout `out` and stderr
`err`, and `none` models any exception (the `except` branch caches and
returns `False`).  The function is total, so it never raises. -/
def check_multi_query_support (probe : Option (PyStr × PyStr)) (cache : Option Bool) :
    Bool × Option Bool :=
  match cache with
  | some b => (b, some b)
  | none =>
    match probe with
    | none => (false, some false)
    | some (out, err) =>
      let output := out ++ err
      let b := strContains output (pys "--sources") && strContains output (pys "--optimized")
      (b, some b)

/-- Stable insertion of a candidate into a list sorted by ascending
distance: the new element goes before the first element whose distance is
not strictly smaller.  Together with `sortByDist` this models Python's
stable `list.sort(key=lambda x: x[1])`. -/
def insertByDist (x : ℕ × ℚ) : List (ℕ × ℚ) → List (ℕ × ℚ)
  | [] => [x]
  | y :: ys => if y.2 < x.2 then y :: insertByDist x ys else x :: y :: ys

/-- Model of Python's stable `edge_distances.sort(key=lambda x: x[1])`
(a stable sort by ascending second component; any stable sort is
extensionally the same function). -/
def sortByDist (l : List (ℕ × ℚ)) : List (ℕ × ℚ) :=
  l.foldr insertByDist []

/-- The distance-annotated candidate list built by the loop of
`SpatialIndex.find_nearest_edges` (src/api/data_loader.py lines 135-143):
ids absent from `self.edges` are skipped, the rest are paired with the
true point-to-geometry distance.  The composite of `self.edges` lookup and
shapely's `point.distance(geometry)` for the fixed query point is
abstracted as `d : ℕ → Option ℚ` (`none` for an id not in the dict). -/
def candDistances (d : ℕ → Option ℚ) (ids : List ℕ) : List (ℕ × ℚ) :=
  ids.filterMap fun i => (d i).map fun x => (i, x)

/-- Translation of `SpatialIndex.find_nearest_edges` (src/api/data_loader.py
lines 112-150): the rtree query result `idx.nearest(...)` is abstracted as
`nearbyIds`; when it is empty return `[]`; otherwise compute true distances
for the ids present in the edge dict, sort by distance (stable), and keep
the first `maxResults`. -/
def find_nearest_edges (d : ℕ → Option ℚ) (nearbyIds : List ℕ) (maxResults : ℕ) :
    List (ℕ × ℚ) :=
  match nearbyIds with
  | [] => []
  | _ :: _ => (sortByDist (candDistances d nearbyIds)).take maxResults

/-- The distance-annotated, radius-filtered candidate list built by the
loop of `SpatialIndex.find_edges_within_radius` (src/api/data_loader.py
lines 190-201): skip ids absent from the dict, convert the degree distance
to meters with the fixed 111320 m/degree factor, and keep a candidate only
when that is at most `radius`. -/
def radiusDistances (d : ℕ → Option ℚ) (ids : List ℕ) (radius : ℚ) : List (ℕ × ℚ) :=
  ids.filterMap fun i =>
    (d i).bind fun dd =>
      let dm := dd * 111320
      if dm ≤ radius then some (i, dm) else none

/-- Translation of `SpatialIndex.find_edges_within_radius`
(src/api/data_loader.py lines 152-208): the rtree box query
`idx.intersection(search_box)` is abstracted as `candidateIds`; when it is
empty return `[]`; otherwise filter by the radius in meters, sort by
distance (stable) and keep the first `maxResults`. -/
def find_edges_within_radius (d : ℕ → Option ℚ) (candidateIds : List ℕ)
    (radius : ℚ) (maxResults : ℕ) : List (ℕ × ℚ) :=
  match candidateIds with
  | [] => []
  | _ :: _ => (sortByDist (radiusDistances d candidateIds radius)).take maxResults

/-- All index pairs `(i, j)` with `i < n`, `j < m`, in the fallback's
iteration order: ascending `i` (source-major), then ascending `j`. -/
def pairList (n m : ℕ) : List (ℕ × ℕ) :=
  (List.range n).flatMap fun i => (List.range m).map fun j => (i, j)

/-- The fallback's successful contributions, in iteration order. -/
def fallbackEntries (q : ℤ → ℤ → QueryResult) (sourceEdges targetEdges : List ℤ)
    (sourceDistances targetDistances : List ℚ) : List FallbackEntry :=
  (pairList sourceEdges.length targetEdges.length).filterMap fun ij =>
    entryOf q sourceEdges targetEdges sourceDistances targetDistances ij.1 ij.2

/-- Concrete mocked engine for the 3-source x 2-target fallback witness:
returns cost 9, 5, 4, 3, 8, 2 for the six pairs of edge ids
(10, 11, 12) x (20, 21), with runtime 1 and path `[source, target]`. -/
def c1q : ℤ → ℤ → QueryResult := fun a b =>
  { success := true,
    distance := some (if a = 10 then (if b = 20 then 9 else 5)
      else if a = 11 then (if b = 20 then 4 else 3)
      else (if b = 20 then 8 else 2)),
    runtime_ms := some 1,
    path := some [a.natAbs, b.natAbs] }

/-- The pair-cost table of `c1q` by candidate index. -/
def c1C : ℕ → ℕ → ℚ := fun i j =>
  if i = 0 then (if j = 0 then 9 else 5)
  else if i = 1 then (if j = 0 then 4 else 3)
  else (if j = 0 then 8 else 2)

/-- The per-pair paths of `c1q` by candidate index. -/
def c1P : ℕ → ℕ → List ℕ := fun i j => [10 + i, 20 + j]

/-- Concrete mocked engine for the 2 x 2 tie-breaking witness: pair costs
10, 5, 5, 7 for the pairs of edge ids (10, 11) x (20, 21), with runtime 2
and path `[source, target]`; pairs (0,1) and (1,0) tie at total 5. -/
def c9q : ℤ → ℤ → QueryResult := fun a b =>
  { success := true,
    distance := some (if a = 10 then (if b = 20 then 10 else 5)
      else (if b = 20 then 5 else 7)),
    runtime_ms := some 2,
    path := some [a.natAbs, b.natAbs] }

/-- The pair-cost table of `c9q` by candidate index. -/
def c9C : ℕ → ℕ → ℚ := fun i j =>
  if i = 0 then (if j = 0 then 10 else 5)
  else (if j = 0 then 5 else 7)

/-- The per-pair paths of `c9q` by candidate index. -/
def c9P : ℕ → ℕ → List ℕ := fun i j => [10 + i, 20 + j]

/-- Source edge ids for the 3 x 2 fallback witness. -/
def c1se : List ℤ := [10, 11, 12]

/-- Target edge ids for the 3 x 2 fallback witness. -/
def c1te : List ℤ := [20, 21]

/-- Source approach distances for the 3 x 2 fallback witness. -/
def c1sd : List ℚ := [1, 2, 3]

/-- Target approach distances for the 3 x 2 fallback witness. -/
def c1td : List ℚ := [10, 20]

/-- Source edge ids for the tie-breaking witness. -/
def c9se : List ℤ := [10, 11]

/-- Target edge ids for the tie-breaking witness. -/
def c9te : List ℤ := [20, 21]

/-- Source approach distances for the tie-breaking witness. -/
def c9sd : List ℚ := [1, 1]

/-- Target approach distances for the tie-breaking witness. -/
def c9td : List ℚ := [2, 2]

set_option maxRecDepth 4000

set_option maxHeartbeats 1000000

/-- The two per-line loops are the same algorithm: the server-side scan and
the engine-side scan agree on every line list and every running state. -/
theorem scanServer_eq_scanEngine :
    ∀ (ls : List PyStr) (d r : Option ℚ) (p : Option (List ℕ)),
      scanServer ls d r p = scanEngine ls d r p := by
  intro ls
  induction ls with
  | nil => intro d r p; rfl
  | cons hd tl ih =>
    intro d r p
    simp only [scanServer, scanEngine]
    repeat first
    | split
    | exact ih _ _ _
    | rfl

/-- C2 (amended): the subprocess-side parser `_parse_output` and the
network-side parser `parse_cpp_output` agree on every output string except
those whose scan ends with a parsed path but no parsed distance: there
`parse_cpp_output` returns `(some path, none, runtime)` while
`_parse_output` returns a Failure.  In every other case,
`parse_cpp_output` returns `(path, distance, runtime)` exactly when
`_parse_output` succeeds with those fields and `(none, none, none)`
exactly when `_parse_output` fails. -/
theorem c2_parse_agreement_except_missing_distance (s : PyStr) :
    ((parse_output s).success = true ∧
      parse_cpp_output s
        = ((parse_output s).path, (parse_output s).distance, (parse_output s).runtime_ms))
    ∨ ((parse_output s).success = false ∧ parse_cpp_output s = (none, none, none))
    ∨ ((parse_output s).success = false ∧
        ∃ p rt, parse_cpp_output s = (some p, none, rt)) := by
  unfold parse_output parse_cpp_output
  rw [scanServer_eq_scanEngine]
  cases scanEngine (pySplit (pys "\n") (pyStrip s)) none none none with
  | noPath => right; left; simp
  | exn m => right; left; simp
  | done d r p =>
    cases p with
    | none => right; left; simp
    | some pth =>
      cases d with
      | none =>
        right; right
        refine ⟨by simp, pth, r, by simp⟩
      | some dv => left; simp

/-- C2 counterexample: on the output string "Expanded path: 1 -> 2" the
engine-side parser fails (no distance was parsed) while the server-side
parser does not return `(None, None, None)` — it returns
`(some [1, 2], none, none)` — so the two parsers do not agree as the
claim states. -/
theorem c2_counterexample :
    (parse_output (pys "Expanded path: 1 -> 2")).success = false ∧
    parse_cpp_output (pys "Expanded path: 1 -> 2") ≠ (none, none, none) ∧
    parse_cpp_output (pys "Expanded path: 1 -> 2") = (some [1, 2], none, none) := by
  decide

/-- C3 (amended): whenever `_parse_output` returns a result with
`success = true`, that result's `path` is a list of edge ids (never the
Python `None`), but the list may be empty — the non-emptiness part of the
claim fails, see the counterexample. -/
theorem c3_success_path_is_list (s : PyStr)
    (h : (parse_output s).success = true) :
    ∃ p : List ℕ, (parse_output s).path = some p := by
  unfold parse_output at h ⊢
  cases hs : scanEngine (pySplit (pys "\n") (pyStrip s)) none none none with
  | noPath => rw [hs] at h; simp at h
  | exn m => rw [hs] at h; simp at h
  | done d r p =>
    rw [hs] at h
    cases p with
    | none => simp at h
    | some pth =>
      cases d with
      | none => simp at h
      | some dv => exact ⟨pth, by simp⟩

/-- C3 witness: a concrete successful parse, fed to the amended theorem. -/
theorem c3_success_path_is_list_witness :
    (parse_output (pys "Distance (including destination edge): 4.5\nExpanded path: 7 -> 8")).success = true ∧
    ∃ p : List ℕ,
      (parse_output (pys "Distance (including destination edge): 4.5\nExpanded path: 7 -> 8")).path = some p :=
  ⟨by decide, c3_success_path_is_list _ (by decide)⟩

/-- C3 counterexample: the output whose path line carries only an ellipsis
parses to a Success whose path is the empty list, refuting "the path is a
non-empty list whenever success". -/
theorem c3_counterexample :
    (parse_output (pys "Distance (total including approach distances): 5\nExpanded path: ...")).success = true ∧
    (parse_output (pys "Distance (total including approach distances): 5\nExpanded path: ...")).path = some [] := by
  decide

/-- C5 (amended): if the line scan completes (no "No path found" line and
no Python exception — a Distance or Runtime line lacking a colon or with an
unparsable number would raise) and it did not set both a distance and a
path, then `_parse_output` returns the Failure whose reason is
"Failed to parse query output"; in particular a result carrying only a
distance, or only a path, is such a Failure. -/
theorem c5_missing_fields_failure (s : PyStr) (d r : Option ℚ) (p : Option (List ℕ))
    (hscan : scanEngine (pySplit (pys "\n") (pyStrip s)) none none none
      = ScanOut.done d r p)
    (hmiss : p = none ∨ d = none) :
    parse_output s
      = { success := false, error := some "Failed to parse query output" } := by
  unfold parse_output
  rw [hscan]
  rcases hmiss with h | h <;> subst h <;> simp

/-- C5 witness: an output with only a path line completes the scan with no
distance, and the amended theorem yields the parse failure. -/
theorem c5_missing_fields_failure_witness :
    scanEngine (pySplit (pys "\n") (pyStrip (pys "Expanded path: 3"))) none none none
      = ScanOut.done none none (some [3]) ∧
    parse_output (pys "Expanded path: 3")
      = { success := false, error := some "Failed to parse query output" } :=
  ⟨by decide, c5_missing_fields_failure _ none none (some [3]) (by decide) (Or.inr rfl)⟩

/-- C5 counterexample: the string "Distance total including" has no line
that sets a distance or a path and no "No path found" line, yet
`_parse_output` does not return the "Failed to parse query output" reason:
the Distance-marker line has no colon, so `line.split(':')[1]` raises an
IndexError and the result is the "Parse error: ..." failure instead. -/
theorem c5_counterexample :
    parse_output (pys "Distance total including")
      = { success := false, error := some "Parse error: list index out of range" } ∧
    (parse_output (pys "Distance total including")).error
      ≠ some "Failed to parse query output" := by
  decide

/-- Membership is preserved by the stable insertion. -/
theorem mem_insertByDist {a x : ℕ × ℚ} :
    ∀ {l : List (ℕ × ℚ)}, a ∈ insertByDist x l ↔ a = x ∨ a ∈ l := by
  intro l
  induction l with
  | nil => simp [insertByDist]
  | cons y ys ih =>
    simp only [insertByDist]
    split
    · simp only [List.mem_cons, ih]
      tauto
    · simp only [List.mem_cons]

/-- The stable insertion preserves sortedness by ascending distance. -/
theorem sorted_insertByDist (x : ℕ × ℚ) :
    ∀ {l : List (ℕ × ℚ)},
      List.Pairwise (fun a b : ℕ × ℚ => a.2 ≤ b.2) l →
      List.Pairwise (fun a b : ℕ × ℚ => a.2 ≤ b.2) (insertByDist x l) := by
  intro l
  induction l with
  | nil => intro _; simp [insertByDist]
  | cons y ys ih =>
    intro h
    rw [List.pairwise_cons] at h
    simp only [insertByDist]
    split
    · rename_i hlt
      rw [List.pairwise_cons]
      refine ⟨fun z hz => ?_, ih h.2⟩
      rcases mem_insertByDist.mp hz with rfl | hz
      · exact le_of_lt hlt
      · exact h.1 z hz
    · rename_i hnlt
      rw [List.pairwise_cons]
      refine ⟨fun z hz => ?_, List.pairwise_cons.mpr h⟩
      rcases List.mem_cons.mp hz with rfl | hz
      · exact not_lt.mp hnlt
      · exact le_trans (not_lt.mp hnlt) (h.1 z hz)

/-- The stable sort sorts by ascending distance. -/
theorem sorted_sortByDist (l : List (ℕ × ℚ)) :
    List.Pairwise (fun a b : ℕ × ℚ => a.2 ≤ b.2) (sortByDist l) := by
  induction l with
  | nil => simp [sortByDist]
  | cons x xs ih => exact sorted_insertByDist x ih

/-- Membership is preserved by the stable sort. -/
theorem mem_sortByDist {a : ℕ × ℚ} :
    ∀ {l : List (ℕ × ℚ)}, a ∈ sortByDist l ↔ a ∈ l := by
  intro l
  induction l with
  | nil => simp [sortByDist]
  | cons x xs ih =>
    show a ∈ insertByDist x (sortByDist xs) ↔ _
    rw [mem_insertByDist]
    simp [ih]

/-- Inserting an element whose distance differs from `qv` does not change
the sublist of elements at distance `qv`. -/
theorem filter_insertByDist_ne (x : ℕ × ℚ) (qv : ℚ) (hq : x.2 ≠ qv) :
    ∀ (l : List (ℕ × ℚ)),
      (insertByDist x l).filter (fun pr => decide (pr.2 = qv))
        = l.filter (fun pr => decide (pr.2 = qv)) := by
  intro l
  induction l with
  | nil => simp [insertByDist, hq]
  | cons y ys ih =>
    simp only [insertByDist]
    split
    · rw [List.filter_cons, List.filter_cons]
      cases hyd : decide (y.2 = qv) <;> simp [ih]
    · rw [List.filter_cons]
      simp [hq]

/-- Inserting an element places it in front of the equal-distance block:
stability of the insertion for elements at the inserted distance. -/
theorem filter_insertByDist_eq (x : ℕ × ℚ) :
    ∀ (l : List (ℕ × ℚ)),
      (insertByDist x l).filter (fun pr => decide (pr.2 = x.2))
        = x :: l.filter (fun pr => decide (pr.2 = x.2)) := by
  intro l
  induction l with
  | nil => simp [insertByDist]
  | cons y ys ih =>
    simp only [insertByDist]
    split
    · rename_i hlt
      have hne : ¬(y.2 = x.2) := ne_of_lt hlt
      simp [List.filter_cons, hne, ih]
    · simp [List.filter_cons]

/-- Stability of the sort: for every distance value, the equal-distance
candidates keep their original relative order. -/
theorem filter_sortByDist (qv : ℚ) :
    ∀ (l : List (ℕ × ℚ)),
      (sortByDist l).filter (fun pr => decide (pr.2 = qv))
        = l.filter (fun pr => decide (pr.2 = qv)) := by
  intro l
  induction l with
  | nil => rfl
  | cons x xs ih =>
    show (insertByDist x (sortByDist xs)).filter _ = _
    by_cases hx : x.2 = qv
    · subst hx
      rw [filter_insertByDist_eq, ih, List.filter_cons]
      simp
    · rw [filter_insertByDist_ne x qv hx, ih, List.filter_cons]
      simp [hx]

/-- Truncation only shortens each equal-distance block: the filtered
truncated list is a prefix of the filtered full list. -/
theorem filter_take_initial (n : ℕ) (l : List (ℕ × ℚ)) (pred : ℕ × ℚ → Bool) :
    (l.take n).filter pred <+: l.filter pred := by
  conv_rhs => rw [← List.take_append_drop n l]
  rw [List.filter_append]
  exact ⟨(l.drop n).filter pred, rfl⟩

/-- C4 (amended): `find_nearest_edges` returns candidates sorted by
ascending true point-to-geometry distance, each candidate carrying the true
distance of its edge; candidates at equal distance appear in the order the
spatial index enumerated them (the sort is stable on distance only), not
necessarily in ascending edge-id order. -/
theorem c4_nearest_sorted_true_distance (d : ℕ → Option ℚ) (nearbyIds : List ℕ)
    (maxResults : ℕ) :
    List.Pairwise (fun a b : ℕ × ℚ => a.2 ≤ b.2)
      (find_nearest_edges d nearbyIds maxResults)
    ∧ (∀ pr ∈ find_nearest_edges d nearbyIds maxResults, d pr.1 = some pr.2)
    ∧ ∀ qv : ℚ,
        (find_nearest_edges d nearbyIds maxResults).filter
            (fun pr => decide (pr.2 = qv))
          <+: (candDistances d nearbyIds).filter (fun pr => decide (pr.2 = qv)) := by
  cases nearbyIds with
  | nil =>
    refine ⟨by simp [find_nearest_edges], by simp [find_nearest_edges], fun qv => ?_⟩
    simp [find_nearest_edges, candDistances]
  | cons a as =>
    refine ⟨?_, ?_, ?_⟩
    · exact List.Pairwise.sublist (List.take_sublist _ _) (sorted_sortByDist _)
    · intro pr hpr
      have h1 : pr ∈ candDistances d (a :: as) :=
        mem_sortByDist.mp (List.mem_of_mem_take hpr)
      simp only [candDistances, List.mem_filterMap] at h1
      obtain ⟨i, _, hi⟩ := h1
      rcases hd : d i with _ | x
      · rw [hd] at hi; simp at hi
      · rw [hd] at hi
        simp only [Option.map_some'] at hi
        obtain rfl : (i, x) = pr := Option.some.inj hi
        exact hd
    · intro qv
      have h := filter_take_initial maxResults (sortByDist (candDistances d (a :: as)))
        (fun pr => decide (pr.2 = qv))
      rwa [filter_sortByDist] at h

/-- C4 counterexample: with an index enumeration that yields edge 5 before
edge 3 and both at the same true distance, the returned candidates at equal
distance are in descending edge-id order, refuting the ascending-edge-id
tie-break of the claim.  (The rtree nearest-neighbour enumeration order at
ties is not id-sorted, and the Python sort key is the distance alone.) -/
theorem c4_counterexample :
    find_nearest_edges (fun i => if i = 3 ∨ i = 5 then some 1 else none) [5, 3] 5
      = [(5, 1), (3, 1)] ∧
    ¬ List.Pairwise (fun a b : ℕ × ℚ => a.2 = b.2 → a.1 < b.1)
        (find_nearest_edges (fun i => if i = 3 ∨ i = 5 then some 1 else none) [5, 3] 5) := by
  decide

/-- C8 (confirmed): every candidate returned by `find_edges_within_radius`
has (meter) distance at most the radius, the list is sorted by ascending
distance, and at most `maxResults` candidates are returned. -/
theorem c8_radius_bound_sorted_truncated (d : ℕ → Option ℚ) (candidateIds : List ℕ)
    (radius : ℚ) (maxResults : ℕ) :
    (∀ pr ∈ find_edges_within_radius d candidateIds radius maxResults, pr.2 ≤ radius)
    ∧ List.Pairwise (fun a b : ℕ × ℚ => a.2 ≤ b.2)
        (find_edges_within_radius d candidateIds radius maxResults)
    ∧ (find_edges_within_radius d candidateIds radius maxResults).length ≤ maxResults := by
  cases candidateIds with
  | nil => simp [find_edges_within_radius]
  | cons a as =>
    refine ⟨?_, ?_, ?_⟩
    · intro pr hpr
      have h1 : pr ∈ radiusDistances d (a :: as) radius :=
        mem_sortByDist.mp (List.mem_of_mem_take hpr)
      simp only [radiusDistances, List.mem_filterMap] at h1
      obtain ⟨i, _, hi⟩ := h1
      rcases hd : d i with _ | dd
      · rw [hd] at hi; simp at hi
      · rw [hd] at hi
        simp only [Option.some_bind] at hi
        split_ifs at hi with hcond
        cases hi
        exact hcond
    · exact List.Pairwise.sublist (List.take_sublist _ _) (sorted_sortByDist _)
    · exact List.length_take_le _ _

/-- C6 (confirmed): when either length precondition fails, `query_multi`
returns the corresponding length-mismatch Failure, and the result is
independent of the engine — the capability flag, the batch call's result
and the per-pair query function are never consulted. -/
theorem c6_length_mismatch_rejected_locally
    (sm sm' : Bool) (b b' : QueryResult) (q q' : ℤ → ℤ → QueryResult)
    (se te : List ℤ) (sd td : List ℚ)
    (h : se.length ≠ sd.length ∨ te.length ≠ td.length) :
    ((query_multi sm b q se te sd td).success = false ∧
      ((query_multi sm b q se te sd td).error
          = some "source_edges and source_distances must have same length" ∨
       (query_multi sm b q se te sd td).error
          = some "target_edges and target_distances must have same length")) ∧
    query_multi sm b q se te sd td = query_multi sm' b' q' se te sd td := by
  unfold query_multi
  by_cases h1 : se.length = sd.length
  · rcases h with h | h
    · exact absurd h1 h
    · simp [h1, h]
  · simp [h1]

/-- C6 witness: a concrete mismatched call. -/
theorem c6_length_mismatch_rejected_locally_witness :
    (([1] : List ℤ).length ≠ ([] : List ℚ).length ∨
      ([] : List ℤ).length ≠ ([] : List ℚ).length) ∧
    (((query_multi true { success := true } (fun _ _ => { success := false })
          [1] [] [] []).success = false ∧
      ((query_multi true { success := true } (fun _ _ => { success := false })
          [1] [] [] []).error
          = some "source_edges and source_distances must have same length" ∨
       (query_multi true { success := true } (fun _ _ => { success := false })
          [1] [] [] []).error
          = some "target_edges and target_distances must have same length")) ∧
    query_multi true { success := true } (fun _ _ => { success := false }) [1] [] [] []
      = query_multi false { success := false } (fun _ _ => { success := true }) [1] [] [] []) :=
  ⟨Or.inl (by decide),
   c6_length_mismatch_rejected_locally true false { success := true } { success := false }
     (fun _ _ => { success := false }) (fun _ _ => { success := true })
     [1] [] [] [] (Or.inl (by decide))⟩

/-- C7 (confirmed): the capability probe is idempotent and defaults safely.
With the cache threaded explicitly, a second call returns the same boolean
as the first and never consults its own probe argument (so at most one
underlying probe runs); a probe that raises (`none`) caches and returns
`false`.  The model function is total, so the probe never raises. -/
theorem c7_capability_probe_idempotent (p1 p2 : Option (PyStr × PyStr)) :
    (check_multi_query_support p2 (check_multi_query_support p1 none).2).1
      = (check_multi_query_support p1 none).1 ∧
    (check_multi_query_support p2 (check_multi_query_support p1 none).2).2
      = (check_multi_query_support p1 none).2 ∧
    check_multi_query_support none none = (false, some false) := by
  rcases p1 with _ | ⟨out, err⟩ <;> simp [check_multi_query_support]

/-- C10 (confirmed): a fresh capability probe reports batch support exactly
when the help output (stdout followed by stderr) contains both the
"--sources" and the "--optimized" markers — so output with exactly one of
the two markers yields `false` — and a `false` capability drives
`query_multi` through the per-pair fallback whenever the length
preconditions hold. -/
theorem c10_capability_needs_both_markers
    (out err : PyStr) (b : QueryResult) (q : ℤ → ℤ → QueryResult)
    (se te : List ℤ) (sd td : List ℚ)
    (h1 : se.length = sd.length) (h2 : te.length = td.length) :
    (check_multi_query_support (some (out, err)) none).1
      = (strContains (out ++ err) (pys "--sources") &&
         strContains (out ++ err) (pys "--optimized")) ∧
    ((check_multi_query_support (some (out, err)) none).1 = false →
      query_multi (check_multi_query_support (some (out, err)) none).1 b q se te sd td
        = query_multi_fallback q se te sd td) := by
  constructor
  · rfl
  · intro hf
    rw [hf]
    unfold query_multi
    simp [h1, h2]

/-- C10 witness: help output carrying only the "--sources" marker yields
`false` and a fallback dispatch. -/
theorem c10_capability_needs_both_markers_witness :
    (([] : List ℤ).length = ([] : List ℚ).length) ∧
    ((check_multi_query_support (some (pys "usage: --sources <ids>", pys "")) none).1
      = (strContains (pys "usage: --sources <ids>" ++ pys "") (pys "--sources") &&
         strContains (pys "usage: --sources <ids>" ++ pys "") (pys "--optimized")) ∧
    ((check_multi_query_support (some (pys "usage: --sources <ids>", pys "")) none).1 = false →
      query_multi (check_multi_query_support (some (pys "usage: --sources <ids>", pys "")) none).1
          { success := true } (fun _ _ => { success := false }) [] [] [] []
        = query_multi_fallback (fun _ _ => { success := false }) [] [] [] [])) :=
  ⟨rfl,
   c10_capability_needs_both_markers (pys "usage: --sources <ids>") (pys "")
     { success := true } (fun _ _ => { success := false }) [] [] [] [] rfl rfl⟩

/-- Folding the best-result selection over the successful entries. -/
def selectBest (l : List FallbackEntry) : FallbackState :=
  l.foldl selStep fallbackInit

/-- The nested source-major/target-minor loops are a single fold over the
index pairs in iteration order. -/
theorem foldl_nested_eq_pairList (g : FallbackState → ℕ → ℕ → FallbackState)
    (n m : ℕ) (init : FallbackState) :
    (List.range n).foldl
        (fun st1 i => (List.range m).foldl (fun st2 j => g st2 i j) st1) init
      = (pairList n m).foldl (fun st ij => g st ij.1 ij.2) init := by
  induction n with
  | zero => rfl
  | succ k ih =>
    rw [List.range_succ, List.foldl_append, ih]
    have hp : pairList (k + 1) m
        = pairList k m ++ (List.range m).map (fun j => (k, j)) := by
      unfold pairList
      rw [List.range_succ, List.flatMap_append]
      simp
    rw [hp, List.foldl_append, List.foldl_cons, List.foldl_nil, List.foldl_map]

/-- Skipping the rejected pairs: folding the guarded step over a pair list
equals folding the plain selection step over the filtered entries. -/
theorem foldl_guard_eq_filterMap (f : ℕ × ℕ → Option FallbackEntry) :
    ∀ (l : List (ℕ × ℕ)) (st : FallbackState),
      l.foldl (fun st2 ij => match f ij with | some e => selStep st2 e | none => st2) st
        = (l.filterMap f).foldl selStep st := by
  intro l
  induction l with
  | nil => intro st; rfl
  | cons hd tl ih =>
    intro st
    rw [List.foldl_cons, List.filterMap_cons]
    cases f hd with
    | none => exact ih st
    | some e => rw [List.foldl_cons]; exact ih (selStep st e)

/-- The fallback search, rewritten as best-entry selection over the
successful contributions in iteration order. -/
theorem query_multi_fallback_eq_selectBest (q : ℤ → ℤ → QueryResult)
    (se te : List ℤ) (sd td : List ℚ) :
    query_multi_fallback q se te sd td
      = match (selectBest (fallbackEntries q se te sd td)).bestPath with
        | none =>
          { success := false,
            error := some "No path found between source and target sets" }
        | some p =>
          { success := true,
            distance := (selectBest (fallbackEntries q se te sd td)).bestDistance,
            runtime_ms := (selectBest (fallbackEntries q se te sd td)).bestRuntime,
            path := some p } := by
  unfold query_multi_fallback selectBest fallbackEntries
  simp only [fallbackStep]
  rw [foldl_nested_eq_pairList
    (fun st2 i j => match entryOf q se te sd td i j with
      | some e => selStep st2 e
      | none => st2)]
  rw [foldl_guard_eq_filterMap]

/-- The running best only goes below a value `v` once an entry below `v`
has been seen: `distAbove v st` says the running best is still `inf` or
strictly above `v`. -/
def distAbove (v : ℚ) (st : FallbackState) : Prop :=
  st.bestDistance = none ∨ ∃ b, st.bestDistance = some b ∧ v < b

/-- A value strictly below the running best passes the update test. -/
theorem ltInf_of_distAbove {v : ℚ} {st : FallbackState} (h : distAbove v st) :
    ltInf v st.bestDistance = true := by
  rcases h with h | ⟨b, hb, hv⟩
  · rw [h]; rfl
  · rw [hb]; exact decide_eq_true hv

/-- Processing entries that all lie strictly above `v` keeps the running
best strictly above `v` (or `inf`). -/
theorem foldl_selStep_above (v : ℚ) :
    ∀ (l : List FallbackEntry) (st : FallbackState),
      distAbove v st → (∀ e ∈ l, v < e.1) →
      distAbove v (l.foldl selStep st) := by
  intro l
  induction l with
  | nil => intro st h _; exact h
  | cons e tl ih =>
    intro st h hl
    rw [List.foldl_cons]
    apply ih
    · unfold selStep
      split
      · exact Or.inr ⟨e.1, rfl, hl e (List.mem_cons_self e tl)⟩
      · exact h
    · intro x hx
      exact hl x (List.mem_cons_of_mem e hx)

/-- Once the running best is at most every remaining entry, no further
update happens. -/
theorem foldl_selStep_fixed :
    ∀ (l : List FallbackEntry) (st : FallbackState) (b : ℚ),
      st.bestDistance = some b → (∀ e ∈ l, b ≤ e.1) →
      l.foldl selStep st = st := by
  intro l
  induction l with
  | nil => intro st b _ _; rfl
  | cons e tl ih =>
    intro st b hb hl
    rw [List.foldl_cons]
    have hstep : selStep st e = st := by
      unfold selStep ltInf
      rw [hb]
      have : ¬(e.1 < b) := not_lt.mpr (hl e (List.mem_cons_self e tl))
      simp [this]
    rw [hstep]
    exact ih st b hb fun x hx => hl x (List.mem_cons_of_mem e hx)

/-- First-found minimum: if `e` is strictly below every earlier entry and
at most every later entry, the selection ends exactly on `e`. -/
theorem selectBest_firstMin (pre post : List FallbackEntry) (e : FallbackEntry)
    (hpre : ∀ x ∈ pre, e.1 < x.1) (hpost : ∀ x ∈ post, e.1 ≤ x.1) :
    selectBest (pre ++ e :: post)
      = { bestDistance := some e.1, bestPath := e.2.1, bestRuntime := e.2.2 } := by
  unfold selectBest
  rw [List.foldl_append, List.foldl_cons]
  have h1 : distAbove e.1 (pre.foldl selStep fallbackInit) :=
    foldl_selStep_above e.1 pre fallbackInit (Or.inl rfl) hpre
  have h2 : selStep (pre.foldl selStep fallbackInit) e
      = { bestDistance := some e.1, bestPath := e.2.1, bestRuntime := e.2.2 } := by
    simp only [selStep]
    rw [ltInf_of_distAbove h1]
    simp
  rw [h2]
  exact foldl_selStep_fixed post _ e.1 rfl hpost

/-- Every non-empty entry list has a first minimum: a decomposition whose
middle element is strictly below everything before it and at most
everything in the whole list. -/
theorem exists_firstMin :
    ∀ (l : List FallbackEntry), l ≠ [] →
      ∃ pre e post, l = pre ++ e :: post ∧
        (∀ x ∈ pre, e.1 < x.1) ∧ (∀ x ∈ l, e.1 ≤ x.1) := by
  intro l
  induction l with
  | nil => intro h; exact absurd rfl h
  | cons a tl ih =>
    intro _
    rcases eq_or_ne tl [] with rfl | hne
    · exact ⟨[], a, [], rfl, by simp, by simp⟩
    · obtain ⟨pre, e, post, hdec, hpre, hmin⟩ := ih hne
      by_cases hlt : e.1 < a.1
      · refine ⟨a :: pre, e, post, by rw [hdec, List.cons_append], ?_, ?_⟩
        · intro x hx
          rcases List.mem_cons.mp hx with rfl | hx
          · exact hlt
          · exact hpre x hx
        · intro x hx
          rcases List.mem_cons.mp hx with rfl | hx
          · exact le_of_lt hlt
          · exact hmin x hx
      · refine ⟨[], a, tl, rfl, by simp, ?_⟩
        intro x hx
        rcases List.mem_cons.mp hx with rfl | hx
        · exact le_refl _
        · exact le_trans (not_lt.mp hlt) (hmin x hx)

/-- Index pairs in the iteration order are exactly the in-range pairs. -/
theorem mem_pairList {i j n m : ℕ} :
    (i, j) ∈ pairList n m ↔ i < n ∧ j < m := by
  simp [pairList, List.mem_flatMap, List.mem_map, List.mem_range]

/-- A per-pair query returning a Success with a distance contributes its
corrected total, path and runtime. -/
theorem entryOf_of_success {q : ℤ → ℤ → QueryResult} {se te : List ℤ}
    {sd td : List ℚ} {i j : ℕ} {dv : ℚ} {rt : Option ℚ} {pth : List ℕ}
    (h : q (se.getD i 0) (te.getD j 0)
      = { success := true, distance := some dv, runtime_ms := rt, path := some pth }) :
    entryOf q se te sd td i j
      = some (sd.getD i 0 + dv + td.getD j 0, some pth, rt) := by
  unfold entryOf
  rw [h]
  simp

/-- A per-pair query returning a Failure contributes nothing. -/
theorem entryOf_of_failure {q : ℤ → ℤ → QueryResult} {se te : List ℤ}
    {sd td : List ℚ} {i j : ℕ}
    (h : (q (se.getD i 0) (te.getD j 0)).success = false) :
    entryOf q se te sd td i j = none := by
  unfold entryOf
  simp only [h]
  rfl

/-- One source-major row of the iteration order. -/
def rowPairs (m a : ℕ) : List (ℕ × ℕ) :=
  (List.range m).map fun b => (a, b)

/-- Splitting the iteration order at an in-range pair `(i, j)`: everything
before it is lexicographically earlier (smaller source index, or equal
source index and smaller target index) and in range. -/
theorem pairList_split {n m i j : ℕ} (hi : i < n) (hj : j < m) :
    ∃ A rest, pairList n m = A ++ (i, j) :: rest ∧
      ∀ p ∈ A, (p.1 < i ∨ (p.1 = i ∧ p.2 < j)) ∧ p.1 < n ∧ p.2 < m := by
  have hrn : List.range n = List.range i ++ i :: List.drop (i + 1) (List.range n) := by
    conv_lhs => rw [← List.take_append_drop i (List.range n)]
    rw [List.take_range, Nat.min_eq_left (le_of_lt hi)]
    congr 1
    rw [List.drop_eq_getElem_cons (by simpa using hi)]
    simp
  have hrm : List.range m = List.range j ++ j :: List.drop (j + 1) (List.range m) := by
    conv_lhs => rw [← List.take_append_drop j (List.range m)]
    rw [List.take_range, Nat.min_eq_left (le_of_lt hj)]
    congr 1
    rw [List.drop_eq_getElem_cons (by simpa using hj)]
    simp
  have hsplit : pairList n m
      = (List.range i).flatMap (rowPairs m) ++ (rowPairs m i
        ++ (List.drop (i + 1) (List.range n)).flatMap (rowPairs m)) := by
    show (List.range n).flatMap (rowPairs m) = _
    conv_lhs => rw [hrn]
    rw [List.flatMap_append, List.flatMap_cons]
  have hrow : rowPairs m i
      = (List.range j).map (fun b => (i, b))
        ++ (i, j) :: (List.drop (j + 1) (List.range m)).map (fun b => (i, b)) := by
    unfold rowPairs
    conv_lhs => rw [hrm]
    rw [List.map_append, List.map_cons]
  refine ⟨(List.range i).flatMap (rowPairs m) ++ (List.range j).map (fun b => (i, b)),
    (List.drop (j + 1) (List.range m)).map (fun b => (i, b))
      ++ (List.drop (i + 1) (List.range n)).flatMap (rowPairs m),
    ?_, ?_⟩
  · rw [hsplit, hrow]
    simp only [List.append_assoc, List.cons_append]
  · intro p hp
    rcases List.mem_append.mp hp with hp | hp
    · simp only [List.mem_flatMap, rowPairs, List.mem_map, List.mem_range] at hp
      obtain ⟨a, ha, b, hb, hpe⟩ := hp
      rw [← hpe]
      exact ⟨Or.inl ha, lt_trans ha hi, hb⟩
    · simp only [List.mem_map, List.mem_range] at hp
      obtain ⟨b, hb, hpe⟩ := hp
      rw [← hpe]
      exact ⟨Or.inr ⟨rfl, hb⟩, hi, lt_trans hb hj⟩

/-- C1 (confirmed): fallback exhaustive search.  With matching distance
lists and no batch capability, when the mocked per-pair engine call for
pair `(i, j)` yields Success with cost `C i j` (and Failure for the other
pairs), `query_multi` returns a Success whose distance is
`source_distances[i] + C[i][j] + target_distances[j]` minimised over all
succeeding pairs and whose path is the path of a pair attaining that
minimum; when no pair succeeds it returns the Failure
"No path found between source and target sets". -/
theorem c1_fallback_exhaustive_search
    (batch : QueryResult) (q : ℤ → ℤ → QueryResult)
    (se te : List ℤ) (sd td : List ℚ)
    (ok : ℕ → ℕ → Bool) (C : ℕ → ℕ → ℚ) (R : ℕ → ℕ → Option ℚ)
    (P : ℕ → ℕ → List ℕ)
    (hlen1 : se.length = sd.length) (hlen2 : te.length = td.length)
    (hok : ∀ i, i < se.length → ∀ j, j < te.length → ok i j = true →
      q (se.getD i 0) (te.getD j 0)
        = { success := true, distance := some (C i j), runtime_ms := R i j,
            path := some (P i j) })
    (hfail : ∀ i, i < se.length → ∀ j, j < te.length → ok i j = false →
      (q (se.getD i 0) (te.getD j 0)).success = false) :
    ((∀ i, i < se.length → ∀ j, j < te.length → ok i j = false) →
      query_multi false batch q se te sd td
        = { success := false,
            error := some "No path found between source and target sets" })
    ∧ ((∃ i, i < se.length ∧ ∃ j, j < te.length ∧ ok i j = true) →
      ∃ i j, i < se.length ∧ j < te.length ∧ ok i j = true ∧
        query_multi false batch q se te sd td
          = { success := true,
              distance := some (sd.getD i 0 + C i j + td.getD j 0),
              runtime_ms := R i j,
              path := some (P i j) } ∧
        ∀ a, a < se.length → ∀ b, b < te.length → ok a b = true →
          sd.getD i 0 + C i j + td.getD j 0
            ≤ sd.getD a 0 + C a b + td.getD b 0) := by
  have hqm : query_multi false batch q se te sd td
      = query_multi_fallback q se te sd td := by
    unfold query_multi
    simp [hlen1, hlen2]
  have hentry : ∀ i j, i < se.length → j < te.length →
      entryOf q se te sd td i j
        = if ok i j
          then some (sd.getD i 0 + C i j + td.getD j 0, some (P i j), R i j)
          else none := by
    intro i j hi hj
    cases hcase : ok i j
    · simp only [Bool.false_eq_true, if_false]
      exact entryOf_of_failure (hfail i hi j hj hcase)
    · simp only [if_true]
      exact entryOf_of_success (hok i hi j hj hcase)
  constructor
  · intro hnone
    have hempty : fallbackEntries q se te sd td = [] := by
      unfold fallbackEntries
      rw [List.filterMap_eq_nil_iff]
      intro ij hij
      obtain ⟨i, j⟩ := ij
      obtain ⟨hi, hj⟩ := mem_pairList.mp hij
      rw [hentry i j hi hj, hnone i hi j hj]
      rfl
    rw [hqm, query_multi_fallback_eq_selectBest, hempty]
    rfl
  · rintro ⟨i0, hi0, j0, hj0, hok0⟩
    have hmem0 : (sd.getD i0 0 + C i0 j0 + td.getD j0 0, some (P i0 j0), R i0 j0)
        ∈ fallbackEntries q se te sd td := by
      unfold fallbackEntries
      rw [List.mem_filterMap]
      refine ⟨(i0, j0), mem_pairList.mpr ⟨hi0, hj0⟩, ?_⟩
      rw [hentry i0 j0 hi0 hj0, hok0]
      rfl
    obtain ⟨pre, e, post, hdec, hpre, hmin⟩ :=
      exists_firstMin _ (List.ne_nil_of_mem hmem0)
    have hemem : e ∈ fallbackEntries q se te sd td := by
      rw [hdec]
      exact List.mem_append_right _ (List.mem_cons_self _ _)
    have hunpack : ∃ i j, i < se.length ∧ j < te.length ∧ ok i j = true ∧
        e = (sd.getD i 0 + C i j + td.getD j 0, some (P i j), R i j) := by
      unfold fallbackEntries at hemem
      rw [List.mem_filterMap] at hemem
      obtain ⟨⟨a, b⟩, hab, habe⟩ := hemem
      obtain ⟨ha, hb⟩ := mem_pairList.mp hab
      rw [hentry a b ha hb] at habe
      cases hcase : ok a b
      · rw [hcase] at habe
        simp at habe
      · rw [hcase] at habe
        simp only [if_true] at habe
        exact ⟨a, b, ha, hb, hcase, (Option.some.inj habe).symm⟩
    obtain ⟨i, j, hi, hj, hoki, he⟩ := hunpack
    have hpost : ∀ x ∈ post, e.1 ≤ x.1 := by
      intro x hx
      apply hmin
      rw [hdec]
      exact List.mem_append_right _ (List.mem_cons_of_mem _ hx)
    refine ⟨i, j, hi, hj, hoki, ?_, ?_⟩
    · rw [hqm, query_multi_fallback_eq_selectBest, hdec,
        selectBest_firstMin pre post e hpre hpost, he]
    · intro a ha b hb hokab
      have hxmem : (sd.getD a 0 + C a b + td.getD b 0, some (P a b), R a b)
          ∈ fallbackEntries q se te sd td := by
        unfold fallbackEntries
        rw [List.mem_filterMap]
        refine ⟨(a, b), mem_pairList.mpr ⟨ha, hb⟩, ?_⟩
        rw [hentry a b ha hb, hokab]
        rfl
      have hle := hmin _ hxmem
      rw [he] at hle
      exact hle

/-- C9 (confirmed): fallback tie-breaking is first-found in source-major
order.  The best-result update uses strict less-than, so when the pair
`(i0, j0)` achieves the minimal total and every lexicographically earlier
succeeding pair (smaller source index, or equal source index and smaller
target index) has a strictly greater total, the returned path and runtime
are those of `(i0, j0)`. -/
theorem c9_fallback_first_found_tie_break
    (batch : QueryResult) (q : ℤ → ℤ → QueryResult)
    (se te : List ℤ) (sd td : List ℚ)
    (ok : ℕ → ℕ → Bool) (C : ℕ → ℕ → ℚ) (R : ℕ → ℕ → Option ℚ)
    (P : ℕ → ℕ → List ℕ)
    (hlen1 : se.length = sd.length) (hlen2 : te.length = td.length)
    (hok : ∀ i, i < se.length → ∀ j, j < te.length → ok i j = true →
      q (se.getD i 0) (te.getD j 0)
        = { success := true, distance := some (C i j), runtime_ms := R i j,
            path := some (P i j) })
    (hfail : ∀ i, i < se.length → ∀ j, j < te.length → ok i j = false →
      (q (se.getD i 0) (te.getD j 0)).success = false)
    (i0 j0 : ℕ) (hi0 : i0 < se.length) (hj0 : j0 < te.length)
    (hok0 : ok i0 j0 = true)
    (hminimal : ∀ a, a < se.length → ∀ b, b < te.length → ok a b = true →
      sd.getD i0 0 + C i0 j0 + td.getD j0 0
        ≤ sd.getD a 0 + C a b + td.getD b 0)
    (hstrict : ∀ a, a < se.length → ∀ b, b < te.length → ok a b = true →
      (a < i0 ∨ (a = i0 ∧ b < j0)) →
      sd.getD i0 0 + C i0 j0 + td.getD j0 0
        < sd.getD a 0 + C a b + td.getD b 0) :
    query_multi false batch q se te sd td
      = { success := true,
          distance := some (sd.getD i0 0 + C i0 j0 + td.getD j0 0),
          runtime_ms := R i0 j0,
          path := some (P i0 j0) } := by
  have hqm : query_multi false batch q se te sd td
      = query_multi_fallback q se te sd td := by
    unfold query_multi
    simp [hlen1, hlen2]
  have hentry : ∀ i j, i < se.length → j < te.length →
      entryOf q se te sd td i j
        = if ok i j
          then some (sd.getD i 0 + C i j + td.getD j 0, some (P i j), R i j)
          else none := by
    intro i j hi hj
    cases hcase : ok i j
    · simp only [Bool.false_eq_true, if_false]
      exact entryOf_of_failure (hfail i hi j hj hcase)
    · simp only [if_true]
      exact entryOf_of_success (hok i hi j hj hcase)
  obtain ⟨A, rest, hsplitAll, hA⟩ := pairList_split hi0 hj0
  have hf0 : entryOf q se te sd td i0 j0
      = some (sd.getD i0 0 + C i0 j0 + td.getD j0 0, some (P i0 j0), R i0 j0) := by
    rw [hentry i0 j0 hi0 hj0, hok0]
    rfl
  have hfe : fallbackEntries q se te sd td
      = A.filterMap (fun ij => entryOf q se te sd td ij.1 ij.2)
        ++ (sd.getD i0 0 + C i0 j0 + td.getD j0 0, some (P i0 j0), R i0 j0)
          :: rest.filterMap (fun ij => entryOf q se te sd td ij.1 ij.2) := by
    unfold fallbackEntries
    rw [hsplitAll, List.filterMap_append, List.filterMap_cons]
    dsimp only
    rw [hf0]
  have hpre : ∀ x ∈ A.filterMap (fun ij => entryOf q se te sd td ij.1 ij.2),
      (sd.getD i0 0 + C i0 j0 + td.getD j0 0 : ℚ) < x.1 := by
    intro x hx
    rw [List.mem_filterMap] at hx
    obtain ⟨⟨a, b⟩, hab, habe⟩ := hx
    obtain ⟨hlex, ha, hb⟩ := hA (a, b) hab
    rw [hentry a b ha hb] at habe
    cases hcase : ok a b
    · rw [hcase] at habe
      simp at habe
    · rw [hcase] at habe
      simp only [if_true] at habe
      rw [← Option.some.inj habe]
      exact hstrict a ha b hb hcase hlex
  have hpost : ∀ x ∈ rest.filterMap (fun ij => entryOf q se te sd td ij.1 ij.2),
      (sd.getD i0 0 + C i0 j0 + td.getD j0 0 : ℚ) ≤ x.1 := by
    intro x hx
    rw [List.mem_filterMap] at hx
    obtain ⟨⟨a, b⟩, hab, habe⟩ := hx
    have habp : (a, b) ∈ pairList se.length te.length := by
      rw [hsplitAll]
      exact List.mem_append_right _ (List.mem_cons_of_mem _ hab)
    obtain ⟨ha, hb⟩ := mem_pairList.mp habp
    rw [hentry a b ha hb] at habe
    cases hcase : ok a b
    · rw [hcase] at habe
      simp at habe
    · rw [hcase] at habe
      simp only [if_true] at habe
      rw [← Option.some.inj habe]
      exact hminimal a ha b hb hcase
  rw [hqm, query_multi_fallback_eq_selectBest, hfe,
    selectBest_firstMin _ _ _ hpre hpost]

/-- C1 witness: the mocked 3-source x 2-target engine `c1q`, whose pair
totals are 20, 26, 16, 25, 21, 25 with the (non-corner) minimum 16 at pair
(1, 0). -/
theorem c1_fallback_exhaustive_search_witness :
    (c1se.length = c1sd.length) ∧
    (c1te.length = c1td.length) ∧
    (∀ i, i < c1se.length → ∀ j, j < c1te.length →
      (fun _ _ => true : ℕ → ℕ → Bool) i j = true →
      c1q (c1se.getD i 0) (c1te.getD j 0)
        = { success := true, distance := some (c1C i j),
            runtime_ms := (fun _ _ => some 1 : ℕ → ℕ → Option ℚ) i j,
            path := some (c1P i j) }) ∧
    (∀ i, i < c1se.length → ∀ j, j < c1te.length →
      (fun _ _ => true : ℕ → ℕ → Bool) i j = false →
      (c1q (c1se.getD i 0) (c1te.getD j 0)).success = false) ∧
    (((∀ i, i < c1se.length → ∀ j, j < c1te.length →
        (fun _ _ => true : ℕ → ℕ → Bool) i j = false) →
      query_multi false { success := false } c1q c1se c1te c1sd c1td
        = { success := false,
            error := some "No path found between source and target sets" })
    ∧ ((∃ i, i < c1se.length ∧ ∃ j, j < c1te.length ∧
          (fun _ _ => true : ℕ → ℕ → Bool) i j = true) →
      ∃ i j, i < c1se.length ∧ j < c1te.length ∧
        (fun _ _ => true : ℕ → ℕ → Bool) i j = true ∧
        query_multi false { success := false } c1q c1se c1te c1sd c1td
          = { success := true,
              distance := some (c1sd.getD i 0 + c1C i j + c1td.getD j 0),
              runtime_ms := (fun _ _ => some 1 : ℕ → ℕ → Option ℚ) i j,
              path := some (c1P i j) } ∧
        ∀ a, a < c1se.length → ∀ b, b < c1te.length →
          (fun _ _ => true : ℕ → ℕ → Bool) a b = true →
          c1sd.getD i 0 + c1C i j + c1td.getD j 0
            ≤ c1sd.getD a 0 + c1C a b + c1td.getD b 0)) :=
  ⟨by decide, by decide, by decide, by decide,
   c1_fallback_exhaustive_search { success := false } c1q c1se c1te c1sd c1td
     (fun _ _ => true) c1C (fun _ _ => some 1) c1P
     (by decide) (by decide) (by decide) (by decide)⟩

/-- C9 witness: the mocked 2 x 2 engine `c9q` with totals 13, 8, 8, 10 —
pairs (0, 1) and (1, 0) tie at the minimum 8 and the result is the path
and runtime of the earlier pair (0, 1). -/
theorem c9_fallback_first_found_tie_break_witness :
    (c9se.length = c9sd.length) ∧
    (c9te.length = c9td.length) ∧
    (∀ i, i < c9se.length → ∀ j, j < c9te.length →
      (fun _ _ => true : ℕ → ℕ → Bool) i j = true →
      c9q (c9se.getD i 0) (c9te.getD j 0)
        = { success := true, distance := some (c9C i j),
            runtime_ms := (fun _ _ => some 2 : ℕ → ℕ → Option ℚ) i j,
            path := some (c9P i j) }) ∧
    (∀ i, i < c9se.length → ∀ j, j < c9te.length →
      (fun _ _ => true : ℕ → ℕ → Bool) i j = false →
      (c9q (c9se.getD i 0) (c9te.getD j 0)).success = false) ∧
    (0 < c9se.length) ∧ (1 < c9te.length) ∧
    ((fun _ _ => true : ℕ → ℕ → Bool) 0 1 = true) ∧
    (∀ a, a < c9se.length → ∀ b, b < c9te.length →
      (fun _ _ => true : ℕ → ℕ → Bool) a b = true →
      c9sd.getD 0 0 + c9C 0 1 + c9td.getD 1 0
        ≤ c9sd.getD a 0 + c9C a b + c9td.getD b 0) ∧
    (∀ a, a < c9se.length → ∀ b, b < c9te.length →
      (fun _ _ => true : ℕ → ℕ → Bool) a b = true →
      (a < 0 ∨ (a = 0 ∧ b < 1)) →
      c9sd.getD 0 0 + c9C 0 1 + c9td.getD 1 0
        < c9sd.getD a 0 + c9C a b + c9td.getD b 0) ∧
    query_multi false { success := false } c9q c9se c9te c9sd c9td
      = { success := true,
          distance := some (c9sd.getD 0 0 + c9C 0 1 + c9td.getD 1 0),
          runtime_ms := (fun _ _ => some 2 : ℕ → ℕ → Option ℚ) 0 1,
          path := some (c9P 0 1) } :=
  ⟨by decide, by decide, by decide, by decide, by decide, by decide, rfl,
   by
     intro a ha b hb _
     have ha2 : a < 2 := by simpa [c9se] using ha
     have hb2 : b < 2 := by simpa [c9te] using hb
     interval_cases a <;> interval_cases b <;> norm_num [c9C, c9sd, c9td],
   by
     intro a ha b hb _ hlex
     rcases hlex with h | ⟨h1, h2⟩
     · exact absurd h (Nat.not_lt_zero a)
     · subst h1
       have hb0 : b = 0 := Nat.lt_one_iff.mp h2
       subst hb0
       norm_num [c9C, c9sd, c9td],
   c9_fallback_first_found_tie_break { success := false } c9q c9se c9te c9sd c9td
     (fun _ _ => true) c9C (fun _ _ => some 2) c9P
     (by decide) (by decide) (by decide) (by decide)
     0 1 (by decide) (by decide) rfl
     (by
       intro a ha b hb _
       have ha2 : a < 2 := by simpa [c9se] using ha
       have hb2 : b < 2 := by simpa [c9te] using hb
       interval_cases a <;> interval_cases b <;> norm_num [c9C, c9sd, c9td])
     (by
       intro a ha b hb _ hlex
       rcases hlex with h | ⟨h1, h2⟩
       · exact absurd h (Nat.not_lt_zero a)
       · subst h1
         have hb0 : b = 0 := Nat.lt_one_iff.mp h2
         subst hb0
         norm_num [c9C, c9sd, c9td])⟩
